import Mathlib

/-!
Verification of the OpenWebUI Blender plugin (`src/Blender.py`).

The development shallowly embeds the pipeline of the `Action` class:
`get_model_code` (fenced-code-block extraction with backtracking),
`render_model` (HTTP response classification), `generate_model_html`
(cache filename assignment, concurrent cache write and HTML templating)
and `template_html` (the model-viewer document).

Python strings are modelled as Lean `String`; `str.split("\n")` and
`"\n".join(...)` are modelled by the executable `splitLines`/`joinLines`
below (the separator is the single character `'\n'`, so a character-level
split is exact).  Raised exceptions are modelled with `Except`/sum types.
-/

namespace Blender

/-- The opener line of a fenced python block, `"```python"` (Blender.py line 292). -/
def pythonFence : String := "```python"

/-- The closer line of a fenced block, `"```"` (Blender.py line 292). -/
def closeFence : String := "```"

/-- The required entry-point marker `"def model("` (Blender.py line 300). -/
def modelMarker : String := "def model("

/-- The message of the `ValueError` raised by `get_model_code` (Blender.py lines 294-296). -/
def msgNoCode : String := "No code block containing `model()` function found in message"

/-- Python's substring test `pat in s`, via infix of the character lists. -/
def strContains (s pat : String) : Bool :=
  decide (pat.data <:+: s.data)

/-- Python's `list.index(target)`: index of the first occurrence, `none` when
absent (where CPython raises `ValueError`). -/
def listIndex (target : String) : List String → Option Nat
  | [] => none
  | x :: xs => if x = target then some 0 else (listIndex target xs).map (· + 1)

/-- Splits a character list at every occurrence of `c`; the separator is
dropped, empty segments are kept (the behaviour of Python's `str.split` with
an explicit one-character separator). -/
def splitOnChar (c : Char) : List Char → List (List Char)
  | [] => [[]]
  | x :: xs =>
    match splitOnChar c xs with
    | [] => [[]]
    | l :: ls => if x = c then [] :: l :: ls else (x :: l) :: ls

/-- Python's `content.split("\n")` (Blender.py line 290). -/
def splitLines (s : String) : List String :=
  (splitOnChar '\n' s.data).map String.mk

/-- Python's `"\n".join(lines)` (Blender.py lines 299 and 308). -/
def joinLines : List String → String
  | [] => ""
  | [l] => l
  | l :: ls => l ++ "\n" ++ joinLines ls

theorem splitOnChar_ne_nil (c : Char) (l : List Char) : splitOnChar c l ≠ [] := by
  cases l with
  | nil => simp [splitOnChar]
  | cons x xs =>
    rw [splitOnChar]
    rcases h : splitOnChar c xs with _ | ⟨a, as⟩
    · simp
    · by_cases hx : x = c <;> simp [hx]

theorem splitLines_ne_nil (s : String) : splitLines s ≠ [] := by
  unfold splitLines
  intro h
  exact splitOnChar_ne_nil '\n' s.data (List.map_eq_nil_iff.mp h)

/--
Extraction of the Blender model code, `Action.get_model_code`
(Blender.py lines 266-308), expressed on the list of lines of the content.

The source checks `content == ""` (returning `""`), splits the content into
lines, looks up the first `"```python"` line and the first `"```"` line
(raising the `ValueError` `msgNoCode` when either is absent), accepts the
enclosed block when it contains `"def model("`, and otherwise recurses on
`"\n".join(lines[code_end + 1:])`.

Every recursive call receives `"\n".join(rest)` and immediately re-splits it,
which yields `rest` itself whenever `rest` is non-empty (its elements, being
the lines of an earlier split, contain no newline); and `"\n".join(rest) = ""`
exactly when `rest` is `[]` or `[""]`.  The entry test `content == ""` is
therefore modelled by the guard `joinLines lines = ""`, and the recursion
passes the line list directly.
-/
def getModelCodeLines (lines : List String) : Except String String :=
  if h : joinLines lines = "" then .ok ""
  else
    match listIndex pythonFence lines, listIndex closeFence lines with
    | some code_start, some code_end =>
      if code_start < code_end then
        let code_block := joinLines ((lines.drop (code_start + 1)).take (code_end - (code_start + 1)))
        if strContains code_block modelMarker then .ok code_block
        else getModelCodeLines (lines.drop (code_end + 1))
      else getModelCodeLines (lines.drop (code_start + 1))
    | _, _ => .error msgNoCode
termination_by lines.length
decreasing_by
  · have hne : lines ≠ [] := by rintro rfl; exact h rfl
    have : 0 < lines.length := List.length_pos.mpr hne
    simp only [List.length_drop]
    omega
  · have hne : lines ≠ [] := by rintro rfl; exact h rfl
    have : 0 < lines.length := List.length_pos.mpr hne
    simp only [List.length_drop]
    omega

/-- Fuel-indexed version of `getModelCodeLines`: identical branch structure,
but each recursive call consumes one unit of fuel and exhaustion returns
`none`.  It witnesses that the recursion depth of `get_model_code` is bounded
by the number of lines of the content. -/
def getModelCodeFuel : Nat → List String → Option (Except String String)
  | 0, _ => none
  | fuel + 1, lines =>
    if joinLines lines = "" then some (.ok "")
    else
      match listIndex pythonFence lines, listIndex closeFence lines with
      | some code_start, some code_end =>
        if code_start < code_end then
          let code_block := joinLines ((lines.drop (code_start + 1)).take (code_end - (code_start + 1)))
          if strContains code_block modelMarker then some (.ok code_block)
          else getModelCodeFuel fuel (lines.drop (code_end + 1))
        else getModelCodeFuel fuel (lines.drop (code_start + 1))
      | _, _ => some (.error msgNoCode)

/-- `Action.get_model_code` (Blender.py lines 266-308) on the content string:
`.ok code` models a normal return, `.error` models the raised `ValueError`. -/
def get_model_code (content : String) : Except String String :=
  if content = "" then .ok ""
  else getModelCodeLines (splitLines content)

/-- An HTTP response from the render server, as consumed by `render_model`
(Blender.py lines 361-383): the status code, the outcome of
`response.json()` (`none` models a raised `json.JSONDecodeError`; a
successful parse is a string-valued JSON object, the only shape the code
reads fields from), the body text and the raw body bytes. -/
structure HttpResponse where
  status_code : Nat
  json? : Option (List (String × String))
  text : String
  content : List Nat

/-- Python's `dict.get(key, default)` on the parsed JSON object. -/
def dictGet (d : List (String × String)) (key dflt : String) : String :=
  match d.lookup key with
  | some v => v
  | none => dflt

/-- The outcome of `Action.render_model`: a normal return of the response
bytes, or a raised `BlenderRenderError` carrying `message`, `details` and
`blender_log` (Blender.py lines 27-41). -/
inductive RenderResult where
  | success (content : List Nat)
  | renderError (message details blender_log : String)
deriving DecidableEq

/-- `Action.render_model` (Blender.py lines 341-390).  The `transport`
argument is `none` when the `httpx` request raises `httpx.RequestError`
(rendered by Python as the text `errText`), and `some response` otherwise;
statuses in `[400, 600)` are classified from the JSON body, every other
status reaches `raise_for_status` (which cannot raise there) and returns the
body bytes. -/
def render_model (transport : Option HttpResponse) (errText : String) : RenderResult :=
  match transport with
  | none =>
    .renderError ("Network error: " ++ errText)
      "Could not connect to the Blender render server. Please check that it's running."
      ""
  | some response =>
    if 400 ≤ response.status_code ∧ response.status_code < 600 then
      match response.json? with
      | some error_data =>
        .renderError (dictGet error_data "error" "Unknown error")
          (dictGet error_data "details" "") (dictGet error_data "blender_log" "")
      | none =>
        .renderError ("HTTP " ++ toString response.status_code) response.text ""
    else .success response.content

/-- `self.cache` (Blender.py line 92). -/
def cache : String := "cache/blender_render/"

/-- A file name matches the glob pattern `f"{chat_id}-model-{msg_id}*.glb"`
used at Blender.py line 409 iff it starts with the pair's prefix, ends with
`".glb"`, and is long enough for the two not to overlap (the `*` matches any,
possibly empty, character sequence of a file name). -/
def globMatch (chat_id msg_id f : String) : Bool :=
  (chat_id ++ "-model-" ++ msg_id).data.isPrefixOf f.data &&
  ".glb".data.isSuffixOf f.data &&
  decide ((chat_id ++ "-model-" ++ msg_id).length + ".glb".length ≤ f.length)

/-- `existing_models` (Blender.py line 409): the number of files of the cache
directory matching the glob pattern of the `(chat_id, msg_id)` pair. -/
def countExisting (dir : List String) (chat_id msg_id : String) : Nat :=
  (dir.filter (globMatch chat_id msg_id)).length

/-- The artifact file name `f"{chat_id}-model-{msg_id}-{n}.glb"`
(Blender.py line 410). -/
def artifactName (chat_id msg_id : String) (n : Nat) : String :=
  chat_id ++ "-model-" ++ msg_id ++ "-" ++ toString n ++ ".glb"

/-- The `model_path` local of `template_html` (Blender.py line 442):
`f"/{self.cache}models/{glb_filename}"`, the reference embedded as the `src`
attribute of the `model-viewer` element. -/
def model_path (glb_filename : String) : String :=
  "/" ++ cache ++ "models/" ++ glb_filename

/-- `Action.template_html` (Blender.py lines 436-455): the model-viewer HTML
document with the artifact reference `model_path glb_filename` interpolated
as the `src` attribute. -/
def template_html (glb_filename : String) : String :=
  "<script type=\"module\" src=\"https://ajax.googleapis.com/ajax/libs/model-viewer/4.0.0/model-viewer.min.js\"></script>\n<script type=\"module\">\n  const modelViewer = document.getElementById(\"mv\");\n  modelViewer.addEventListener(\"load\", () => \x7b\n    modelViewer.model.materials[0].pbrMetallicRoughness.setBaseColorFactor(\"#b3b3b3\");\n  \x7d);\n</script>\n<model-viewer\n    src=\"" ++
  model_path glb_filename ++
  "\"\n    id=\"mv\" camera-controls auto-rotate shadow-intensity=\"1\" shadow-softness=\"0.5\"\n    style=\"width: 100vw; height: 100vh;\">\n</model-viewer>"

/-- `Action.generate_model_html` (Blender.py lines 392-421) as a pure
function of the render bytes, the ids and the observed cache directory
listing.  It returns the `(glb_filename, model_html)` pair returned by the
source, paired with the write performed by the awaited
`write_model_to_cache` task: the path
`(Path("data") / self.cache / "models" / glb_filename)` (resolved relative
to the working directory) and the written bytes. -/
def generate_model_html (model : List Nat) (chat_id msg_id : String)
    (dir : List String) : (String × String) × List (String × List Nat) :=
  let existing_models := countExisting dir chat_id msg_id
  let glb_filename := artifactName chat_id msg_id existing_models
  let glb_filepath := "data/" ++ cache ++ "models/" ++ glb_filename
  ((glb_filename, template_html glb_filename), [(glb_filepath, model)])

/-- The result of `Action.render_model_to_html` (Blender.py lines 310-339):
a normal return of the filename/html pair, a propagated
`BlenderRenderError`, or the `httpx.RequestError` raised when the generated
html is empty. -/
inductive HtmlResult where
  | ok (model_filename model_html : String)
  | renderError (message details blender_log : String)
  | requestError (msg : String)
deriving DecidableEq

/-- `Action.render_model_to_html` (Blender.py lines 310-339): lets a
`BlenderRenderError` raised by `render_model` propagate, otherwise builds the
filename/html pair via `generate_model_html` and raises `httpx.RequestError`
when the generated html is falsy (empty). -/
def render_model_to_html (transport : Option HttpResponse) (errText : String)
    (chat_id msg_id : String) (dir : List String) : HtmlResult :=
  match render_model transport errText with
  | .renderError m d l => .renderError m d l
  | .success model =>
    let r := generate_model_html model chat_id msg_id dir
    if (r.1).2 = "" then .requestError "Request to blender server failed"
    else .ok (r.1).1 (r.1).2

/-- The success path of `Action.action` (Blender.py lines 128-163) as a
pure pipeline: extract the model code (an extraction `ValueError`
propagates, an empty extraction returns early with no render), call the
render server (a `BlenderRenderError` aborts the pipeline), then cache and
template the result via `generate_model_html`.  `some` carries the
filename/html pair together with the cache write performed. -/
def pipeline (content : String) (render : String → RenderResult)
    (chat_id msg_id : String) (dir : List String) :
    Option ((String × String) × List (String × List Nat)) :=
  match get_model_code content with
  | .error _ => none
  | .ok code =>
    if code = "" then none
    else
      match render code with
      | .renderError _ _ _ => none
      | .success model => some (generate_model_html model chat_id msg_id dir)

/-- The bytes returned by the render stub of the end-to-end test of C7. -/
def stub12 : List Nat := List.replicate 12 42

/-- An instruction of the orchestrator of `generate_model_html`: spawn an
asynchronous task, suspend until a task has completed, or return. -/
inductive AsyncInstr where
  | spawn (t : Nat)
  | awaitTask (t : Nat)
  | ret
deriving DecidableEq

/-- An observable event of one execution: a spawned task completes, or the
orchestrator returns. -/
inductive AsyncEvent where
  | completes (t : Nat)
  | returns
deriving DecidableEq

/-- The task id of the `write_model_to_cache` task (Blender.py line 415). -/
def writeModelTask : Nat := 0

/-- The task id of the `template_html` task (Blender.py line 418). -/
def templateHtmlTask : Nat := 1

/-- The await structure of `Action.generate_model_html`
(Blender.py lines 415-421): `asyncio.create_task(write_model_to_cache ...)`,
`asyncio.create_task(template_html ...)`, `await write_model_task`, then
`return glb_filename, await template_html_task`. -/
def generateModelHtmlSchedule : List AsyncInstr :=
  [.spawn writeModelTask, .spawn templateHtmlTask,
   .awaitTask writeModelTask, .awaitTask templateHtmlTask, .ret]

/-- Small-step executions of an instruction list under a cooperative
scheduler.  `Exec is pending completed evs` holds when, starting with the
program `is`, the set `pending` of spawned-but-unfinished tasks and the set
`completed` of finished tasks, the remaining observable events are exactly
`evs` (in chronological order).  A pending task may complete at any point;
`awaitTask t` proceeds only once `t` has completed; `ret` emits `returns`. -/
inductive Exec : List AsyncInstr → List Nat → List Nat → List AsyncEvent → Prop where
  | done : ∀ {pending completed}, Exec [] pending completed []
  | spawn : ∀ {t is pending completed evs},
      Exec is (t :: pending) completed evs →
      Exec (.spawn t :: is) pending completed evs
  | complete : ∀ {t is pending completed evs},
      t ∈ pending →
      Exec is (pending.erase t) (t :: completed) evs →
      Exec is pending completed (.completes t :: evs)
  | awaited : ∀ {t is pending completed evs},
      t ∈ completed →
      Exec is pending completed evs →
      Exec (.awaitTask t :: is) pending completed evs
  | ret : ∀ {is pending completed evs},
      Exec is pending completed evs →
      Exec (.ret :: is) pending completed (.returns :: evs)

/-- The program `is` awaits task `w` before any `ret` instruction. -/
inductive AwaitGuardsRet (w : Nat) : List AsyncInstr → Prop where
  | nil : AwaitGuardsRet w []
  | here : ∀ {is}, AwaitGuardsRet w (.awaitTask w :: is)
  | cons : ∀ {i is}, i ≠ .ret → AwaitGuardsRet w is → AwaitGuardsRet w (i :: is)

theorem strData_append (a b : String) : (a ++ b).data = a.data ++ b.data := by
  cases a
  cases b
  rfl

theorem joinLines_eq_empty_iff : ∀ l : List String, joinLines l = "" ↔ l = [] ∨ l = [""]
  | [] => by simp [joinLines]
  | [x] => by simp [joinLines]
  | x :: y :: t => by
    rw [show joinLines (x :: y :: t) = x ++ "\n" ++ joinLines (y :: t) from rfl]
    constructor
    · intro h
      have hd := congrArg String.data h
      rw [strData_append, strData_append] at hd
      rw [show ("\n" : String).data = ['\n'] from rfl] at hd
      simp at hd
    · rintro (h | h) <;> simp at h

theorem listIndex_append_self {x : String} {l1 : List String} (h : x ∉ l1) (l2 : List String) :
    listIndex x (l1 ++ x :: l2) = some l1.length := by
  induction l1 with
  | nil => simp [listIndex]
  | cons a as ih =>
    have hax : ¬ a = x := by rintro rfl; exact h (List.mem_cons_self a as)
    have has : x ∉ as := fun hm => h (List.mem_cons_of_mem _ hm)
    simp [listIndex, if_neg hax, ih has]

theorem listIndex_lt_length {x : String} :
    ∀ {l : List String} {i : Nat}, listIndex x l = some i → i < l.length := by
  intro l
  induction l with
  | nil => intro i h; simp [listIndex] at h
  | cons a as ih =>
    intro i h
    rw [listIndex] at h
    by_cases hax : a = x
    · rw [if_pos hax] at h
      simp at h
      simp only [List.length_cons]
      omega
    · rw [if_neg hax] at h
      rcases Option.map_eq_some'.mp h with ⟨j, hj, rfl⟩
      have := ih hj
      simp only [List.length_cons]
      omega

theorem listIndex_get_eq {x : String} :
    ∀ {l : List String} {i : Nat}, listIndex x l = some i → l[i]? = some x := by
  intro l
  induction l with
  | nil => intro i h; simp [listIndex] at h
  | cons a as ih =>
    intro i h
    rw [listIndex] at h
    by_cases hax : a = x
    · rw [if_pos hax] at h
      simp at h
      subst h
      simp [hax]
    · rw [if_neg hax] at h
      rcases Option.map_eq_some'.mp h with ⟨j, hj, rfl⟩
      simpa using ih hj

theorem splitOnChar_eq_single_nil {c : Char} :
    ∀ {l : List Char}, splitOnChar c l = [[]] → l = [] := by
  intro l
  cases l with
  | nil => intro; rfl
  | cons x xs =>
    intro h
    rcases hs : splitOnChar c xs with _ | ⟨a, as⟩
    · exact absurd hs (splitOnChar_ne_nil c xs)
    · rw [splitOnChar, hs] at h
      by_cases hx : x = c
      · simp [hx] at h
      · simp [hx] at h

theorem splitLines_empty_imp {s : String} (h : joinLines (splitLines s) = "") : s = "" := by
  rcases (joinLines_eq_empty_iff _).mp h with h1 | h1
  · exact absurd h1 (splitLines_ne_nil s)
  · unfold splitLines at h1
    rcases hs : splitOnChar '\n' s.data with _ | ⟨a, as⟩
    · exact absurd hs (splitOnChar_ne_nil '\n' s.data)
    · rw [hs] at h1
      simp only [List.map_cons, List.cons.injEq] at h1
      obtain ⟨ha, has⟩ := h1
      have hmap : as = [] := List.map_eq_nil_iff.mp has
      have ha' : a = [] := by
        have := congrArg String.data ha
        simpa using this
      have : splitOnChar '\n' s.data = [[]] := by rw [hs, ha', hmap]
      have hd := splitOnChar_eq_single_nil this
      cases s
      simp_all

theorem getModelCodeLines_empty {lines : List String} (h : joinLines lines = "") :
    getModelCodeLines lines = .ok "" := by
  rw [getModelCodeLines.eq_def, dif_pos h]

theorem getModelCodeLines_error {lines : List String} (hne : ¬ joinLines lines = "")
    (h : listIndex pythonFence lines = none ∨ listIndex closeFence lines = none) :
    getModelCodeLines lines = .error msgNoCode := by
  rw [getModelCodeLines.eq_def, dif_neg hne]
  rcases h with h | h
  · rw [h]
  · rw [h]
    rcases hcs : listIndex pythonFence lines with _ | cs <;> simp

theorem getModelCodeLines_found {pre b rest : List String}
    (hp : pythonFence ∉ pre) (hc : closeFence ∉ pre) (hcb : closeFence ∉ b) :
    getModelCodeLines (pre ++ pythonFence :: (b ++ closeFence :: rest)) =
      (if strContains (joinLines b) modelMarker then Except.ok (joinLines b)
       else getModelCodeLines rest) := by
  have hl : pre ++ pythonFence :: (b ++ closeFence :: rest) =
      (pre ++ pythonFence :: b) ++ closeFence :: rest := by simp
  have hne : ¬ joinLines (pre ++ pythonFence :: (b ++ closeFence :: rest)) = "" := by
    rw [joinLines_eq_empty_iff]
    rintro (h | h)
    · simp at h
    · have hmem : pythonFence ∈ pre ++ pythonFence :: (b ++ closeFence :: rest) := by simp
      rw [h] at hmem
      have : pythonFence = "" := by simpa using hmem
      exact absurd this (by decide)
  have hcs : listIndex pythonFence (pre ++ pythonFence :: (b ++ closeFence :: rest)) =
      some pre.length := listIndex_append_self hp _
  have hnotmem : closeFence ∉ pre ++ pythonFence :: b := by
    intro hmem
    rcases List.mem_append.mp hmem with h1 | h1
    · exact hc h1
    · rcases List.mem_cons.mp h1 with h2 | h2
      · exact absurd h2 (by decide)
      · exact hcb h2
  have hce : listIndex closeFence (pre ++ pythonFence :: (b ++ closeFence :: rest)) =
      some (pre.length + 1 + b.length) := by
    rw [hl, listIndex_append_self hnotmem]
    congr 1
    simp <;> omega
  have hdrop1 : (pre ++ pythonFence :: (b ++ closeFence :: rest)).drop (pre.length + 1) =
      b ++ closeFence :: rest := by
    rw [show pre ++ pythonFence :: (b ++ closeFence :: rest) =
          (pre ++ [pythonFence]) ++ (b ++ closeFence :: rest) by simp,
        show pre.length + 1 = (pre ++ [pythonFence]).length by simp]
    exact List.drop_left _ _
  have htake : (b ++ closeFence :: rest).take (pre.length + 1 + b.length - (pre.length + 1)) =
      b := by
    rw [show pre.length + 1 + b.length - (pre.length + 1) = b.length by omega]
    exact List.take_left _ _
  have hdrop2 : (pre ++ pythonFence :: (b ++ closeFence :: rest)).drop
      (pre.length + 1 + b.length + 1) = rest := by
    rw [show pre ++ pythonFence :: (b ++ closeFence :: rest) =
          ((pre ++ pythonFence :: b) ++ [closeFence]) ++ rest by simp,
        show pre.length + 1 + b.length + 1 =
          ((pre ++ pythonFence :: b) ++ [closeFence]).length by simp <;> omega]
    exact List.drop_left _ _
  rw [getModelCodeLines.eq_def, dif_neg hne, hcs, hce]
  simp only []
  rw [if_pos (by omega : pre.length < pre.length + 1 + b.length)]
  rw [hdrop1, htake, hdrop2]

theorem getModelCodeLines_reject {pre b rest : List String}
    (hp : pythonFence ∉ pre) (hc : closeFence ∉ pre) (hcb : closeFence ∉ b)
    (hm : strContains (joinLines b) modelMarker = false) :
    getModelCodeLines (pre ++ pythonFence :: (b ++ closeFence :: rest)) =
      getModelCodeLines rest := by
  rw [getModelCodeLines_found hp hc hcb, if_neg (by simp [hm])]

theorem getModelCodeLines_accept {pre b rest : List String}
    (hp : pythonFence ∉ pre) (hc : closeFence ∉ pre) (hcb : closeFence ∉ b)
    (hm : strContains (joinLines b) modelMarker = true) :
    getModelCodeLines (pre ++ pythonFence :: (b ++ closeFence :: rest)) =
      .ok (joinLines b) := by
  rw [getModelCodeLines_found hp hc hcb, if_pos (by simp [hm])]

theorem getModelCodeFuel_eq (fuel : Nat) :
    ∀ lines : List String, 1 ≤ fuel → lines.length ≤ fuel →
    getModelCodeFuel fuel lines = some (getModelCodeLines lines) := by
  induction fuel with
  | zero => intro lines h; omega
  | succ n ih =>
    intro lines _ hlen
    by_cases hj : joinLines lines = ""
    · rw [getModelCodeLines_empty hj]
      simp [getModelCodeFuel, hj]
    · rcases hcs : listIndex pythonFence lines with _ | cs
      · rw [getModelCodeLines_error hj (Or.inl hcs)]
        simp [getModelCodeFuel, hj, hcs]
      · rcases hce : listIndex closeFence lines with _ | ce
        · rw [getModelCodeLines_error hj (Or.inr hce)]
          simp [getModelCodeFuel, hj, hcs, hce]
        · have hcs' := listIndex_lt_length hcs
          have hce' := listIndex_lt_length hce
          have hget1 := listIndex_get_eq hcs
          have hget2 := listIndex_get_eq hce
          have hne' : cs ≠ ce := by
            rintro rfl
            rw [hget1] at hget2
            have heq : pythonFence = closeFence := by
              injection hget2
            exact absurd heq (by decide)
          have hlen2 : 2 ≤ lines.length := by omega
          rw [getModelCodeLines.eq_def, dif_neg hj, hcs, hce]
          simp only [getModelCodeFuel, if_neg hj, hcs, hce]
          by_cases hlt : cs < ce
          · rw [if_pos hlt, if_pos hlt]
            by_cases hm : strContains (joinLines ((lines.drop (cs + 1)).take (ce - (cs + 1)))) modelMarker
            · simp [hm]
            · simp only [hm, Bool.false_eq_true, if_false]
              apply ih
              · omega
              · simp only [List.length_drop]
                omega
          · rw [if_neg hlt, if_neg hlt]
            apply ih
            · omega
            · simp only [List.length_drop]
              omega

theorem getModelCodeLines_eval {lines : List String} {r : Except String String}
    (h1 : 1 ≤ lines.length) (h : getModelCodeFuel lines.length lines = some r) :
    getModelCodeLines lines = r := by
  have h2 := getModelCodeFuel_eq lines.length lines h1 le_rfl
  rw [h] at h2
  exact (Option.some.inj h2).symm

theorem marker_of_ok : ∀ (n : Nat) (lines : List String) (s : String),
    lines.length ≤ n → getModelCodeLines lines = .ok s → s ≠ "" →
    strContains s modelMarker = true := by
  intro n
  induction n with
  | zero =>
    intro lines s hl h hs
    cases lines with
    | nil =>
      rw [getModelCodeLines_empty (show joinLines [] = "" from rfl)] at h
      exact absurd (Except.ok.inj h).symm hs
    | cons a as => simp at hl
  | succ n ih =>
    intro lines s hl h hs
    by_cases hj : joinLines lines = ""
    · rw [getModelCodeLines_empty hj] at h
      exact absurd (Except.ok.inj h).symm hs
    · have hne : lines ≠ [] := by rintro rfl; exact hj rfl
      have hpos : 0 < lines.length := List.length_pos.mpr hne
      rcases hcs : listIndex pythonFence lines with _ | cs
      · rw [getModelCodeLines_error hj (Or.inl hcs)] at h
        exact absurd h (by simp)
      · rcases hce : listIndex closeFence lines with _ | ce
        · rw [getModelCodeLines_error hj (Or.inr hce)] at h
          exact absurd h (by simp)
        · have hceb := listIndex_lt_length hce
          have hcsb := listIndex_lt_length hcs
          rw [getModelCodeLines.eq_def, dif_neg hj, hcs, hce] at h
          simp only [] at h
          by_cases hlt : cs < ce
          · rw [if_pos hlt] at h
            by_cases hm : strContains (joinLines ((lines.drop (cs + 1)).take (ce - (cs + 1)))) modelMarker = true
            · rw [if_pos hm] at h
              exact (Except.ok.inj h) ▸ hm
            · rw [if_neg hm] at h
              refine ih _ _ ?_ h hs
              simp only [List.length_drop]
              omega
          · rw [if_neg hlt] at h
            refine ih _ _ ?_ h hs
            simp only [List.length_drop]
            omega

/-- C1: inside a message whose lines consist of arbitrary fence-free text, an
invalid fenced python block (body lacking `"def model("`), fence-free text, a
valid fenced python block, and an arbitrary tail, `get_model_code` discards
the rejected first block, re-scans strictly after its closing fence, and
returns the body of the valid second block. -/
theorem c1_invalid_then_valid_block_is_backtracked
    (content : String) (pre b1 mid b2 post : List String)
    (hsplit : splitLines content = pre ++ pythonFence :: (b1 ++ closeFence ::
      (mid ++ pythonFence :: (b2 ++ closeFence :: post))))
    (hp1 : pythonFence ∉ pre) (hc1 : closeFence ∉ pre) (hcb1 : closeFence ∉ b1)
    (hp2 : pythonFence ∉ mid) (hc2 : closeFence ∉ mid) (hcb2 : closeFence ∉ b2)
    (hm1 : strContains (joinLines b1) modelMarker = false)
    (hm2 : strContains (joinLines b2) modelMarker = true) :
    get_model_code content = .ok (joinLines b2) := by
  have hcne : content ≠ "" := by
    rintro rfl
    rw [show splitLines "" = [""] from rfl] at hsplit
    have hlen := congrArg List.length hsplit
    simp [List.length_append] at hlen
    omega
  rw [get_model_code, if_neg hcne, hsplit]
  rw [getModelCodeLines_reject hp1 hc1 hcb1 hm1]
  exact getModelCodeLines_accept hp2 hc2 hcb2 hm2

/-- Witness for C1 at the concrete message holding the invalid block `x = 1`
followed by the valid block `def model(): pass`. -/
theorem c1_witness :
    (splitLines "```python\nx = 1\n```\n```python\ndef model():\n    pass\n```" =
      [] ++ pythonFence :: (["x = 1"] ++ closeFence ::
        ([] ++ pythonFence :: (["def model():", "    pass"] ++ closeFence :: [])))) ∧
    get_model_code "```python\nx = 1\n```\n```python\ndef model():\n    pass\n```" =
      .ok "def model():\n    pass" :=
  ⟨by rfl,
   c1_invalid_then_valid_block_is_backtracked
     "```python\nx = 1\n```\n```python\ndef model():\n    pass\n```"
     [] ["x = 1"] [] ["def model():", "    pass"] []
     (by rfl) (by decide) (by decide) (by decide) (by decide) (by decide)
     (by decide) (by decide) (by decide)⟩

/-- Counterexample to C4: the non-empty content `"hello"` contains no fenced
code block, yet `get_model_code` raises the `ValueError` (modelled as
`.error`) instead of returning the benign no-code result. -/
theorem c4_counterexample :
    get_model_code "hello" = .error msgNoCode := by
  rw [get_model_code, if_neg (by decide)]
  rw [show splitLines "hello" = ["hello"] from rfl]
  exact getModelCodeLines_eval (by decide) (by rfl)

/-- C4 as amended: only genuinely empty content returns the benign no-code
result `""`; non-empty content containing no `"```python"` line or no
`"```"` line raises the `ValueError` `msgNoCode`. -/
theorem c4_amended_no_block (content : String) :
    (content = "" → get_model_code content = .ok "") ∧
    (content ≠ "" →
      (listIndex pythonFence (splitLines content) = none ∨
       listIndex closeFence (splitLines content) = none) →
      get_model_code content = .error msgNoCode) := by
  constructor
  · intro h
    rw [get_model_code, if_pos h]
  · intro hne hfence
    rw [get_model_code, if_neg hne]
    refine getModelCodeLines_error ?_ hfence
    intro hj
    exact hne (splitLines_empty_imp hj)

/-- Witness for C4 as amended, at the empty content and at `"hello"`. -/
theorem c4_witness :
    (("" : String) = "" ∧ get_model_code "" = .ok "") ∧
    (("hello" : String) ≠ "" ∧ listIndex pythonFence (splitLines "hello") = none ∧
      get_model_code "hello" = .error msgNoCode) :=
  ⟨⟨rfl, (c4_amended_no_block "").1 rfl⟩,
   ⟨by decide, by rfl,
    (c4_amended_no_block "hello").2 (by decide) (Or.inl (by rfl))⟩⟩

/-- Counterexample to C5: the non-empty content `"```python\nfoo\n```"` has a
single fenced block, whose body lacks `"def model("`, yet `get_model_code`
returns `""` normally (the rejected block ends the content, so the recursive
call receives the empty remainder and takes the benign empty-content branch)
instead of raising the exhaustive-search `ValueError`. -/
theorem c5_counterexample :
    ("```python\nfoo\n```" : String) ≠ "" ∧
    strContains (joinLines ["foo"]) modelMarker = false ∧
    get_model_code "```python\nfoo\n```" = .ok "" := by
  refine ⟨by decide, by decide, ?_⟩
  rw [get_model_code, if_neg (by decide)]
  rw [show splitLines "```python\nfoo\n```" = ["```python", "foo", "```"] from rfl]
  exact getModelCodeLines_eval (by decide) (by rfl)

/-- C5 as amended: after rejecting an invalid fenced block, `get_model_code`
re-scans the remainder strictly after the block; it raises the
exhaustive-search `ValueError` when that remainder is non-empty and contains
no further fence line, but returns `""` normally when the rejected block ends
the content (empty remainder). -/
theorem c5_amended_exhaustive_search (content : String) (pre b1 rest : List String)
    (hsplit : splitLines content = pre ++ pythonFence :: (b1 ++ closeFence :: rest))
    (hp : pythonFence ∉ pre) (hc : closeFence ∉ pre) (hcb : closeFence ∉ b1)
    (hm : strContains (joinLines b1) modelMarker = false) :
    (joinLines rest = "" → get_model_code content = .ok "") ∧
    (joinLines rest ≠ "" →
      (listIndex pythonFence rest = none ∨ listIndex closeFence rest = none) →
      get_model_code content = .error msgNoCode) := by
  have hcne : content ≠ "" := by
    rintro rfl
    rw [show splitLines "" = [""] from rfl] at hsplit
    have hlen := congrArg List.length hsplit
    simp [List.length_append] at hlen
    omega
  have hstep : get_model_code content = getModelCodeLines rest := by
    rw [get_model_code, if_neg hcne, hsplit]
    exact getModelCodeLines_reject hp hc hcb hm
  constructor
  · intro hr
    rw [hstep]
    exact getModelCodeLines_empty hr
  · intro hr hf
    rw [hstep]
    exact getModelCodeLines_error hr hf

/-- Witness for C5 as amended: an invalid block followed by the fence-free
line `"extra"` raises the `ValueError`. -/
theorem c5_witness :
    (splitLines "```python\nfoo\n```\nextra" =
      [] ++ pythonFence :: (["foo"] ++ closeFence :: ["extra"])) ∧
    get_model_code "```python\nfoo\n```\nextra" = .error msgNoCode :=
  ⟨by rfl,
   (c5_amended_exhaustive_search "```python\nfoo\n```\nextra" [] ["foo"] ["extra"]
     (by rfl) (by decide) (by decide) (by decide) (by decide)).2
     (by decide) (Or.inl (by rfl))⟩

/-- C6: `get_model_code` terminates on every input, with recursion depth
bounded by the line count of the content: running the fuel-indexed variant of
the scan with exactly one unit of fuel per line of the content never exhausts
the fuel and computes `get_model_code content`. -/
theorem c6_recursion_depth_bounded_by_line_count (content : String)
    (h : content ≠ "") :
    getModelCodeFuel (splitLines content).length (splitLines content) =
      some (get_model_code content) := by
  rw [get_model_code, if_neg h]
  refine getModelCodeFuel_eq _ _ ?_ le_rfl
  have hne := splitLines_ne_nil content
  have hpos : 0 < (splitLines content).length := List.length_pos.mpr hne
  omega

/-- Witness for C6 at the concrete content `"hello"`. -/
theorem c6_witness :
    ("hello" : String) ≠ "" ∧
    getModelCodeFuel (splitLines "hello").length (splitLines "hello") =
      some (get_model_code "hello") :=
  ⟨by decide, c6_recursion_depth_bounded_by_line_count "hello" (by decide)⟩

/-- C9: whenever `get_model_code` returns a non-empty string, that string
contains the entry-point marker `"def model("`: only blocks passing the
marker test are ever returned non-empty. -/
theorem c9_nonempty_result_has_marker (content s : String)
    (h : get_model_code content = .ok s) (hs : s ≠ "") :
    strContains s modelMarker = true := by
  by_cases hc : content = ""
  · rw [get_model_code, if_pos hc] at h
    exact absurd (Except.ok.inj h).symm hs
  · rw [get_model_code, if_neg hc] at h
    exact marker_of_ok (splitLines content).length _ s le_rfl h hs

/-- C2: a response whose HTTP status lies in `[400, 600)` and whose JSON body
is `{"error": E, "details": D, "blender_log": L}` makes `render_model` raise
a `BlenderRenderError` carrying exactly `message = E`, `details = D`,
`log = L`. -/
theorem c2_server_error_classification (status : Nat) (E D L txt : String)
    (body : List Nat) (errText : String)
    (h4 : 400 ≤ status) (h6 : status < 600) :
    render_model
      (some ⟨status, some [("error", E), ("details", D), ("blender_log", L)], txt, body⟩)
      errText = .renderError E D L := by
  rw [render_model]
  rw [if_pos ⟨h4, h6⟩]
  simp [dictGet, List.lookup]

/-- Witness for C2 at status 500 and concrete field values. -/
theorem c2_witness :
    (400 ≤ 500 ∧ 500 < 600) ∧
    render_model (some ⟨500, some [("error", "E"), ("details", "D"), ("blender_log", "L")],
      "", []⟩) "x" = .renderError "E" "D" "L" :=
  ⟨⟨by decide, by decide⟩,
   c2_server_error_classification 500 "E" "D" "L" "" [] "x" (by decide) (by decide)⟩

/-- Counterexample to C3: the cache directory `["c1-model-m1x.glb"]` contains
no cached artifact of the pair `(chat_id = "c1", message_id = "m1")` (every
such artifact is named `c1-model-m1-{i}.glb`), yet the next artifact for the
pair is assigned sequence 1, not 0: the glob `c1-model-m1*.glb` also counts
the unrelated file. -/
theorem c3_counterexample :
    (∀ i : Nat, artifactName "c1" "m1" i ≠ "c1-model-m1x.glb") ∧
    ((generate_model_html [] "c1" "m1" ["c1-model-m1x.glb"]).1).1 = "c1-model-m1-1.glb" ∧
    ("c1-model-m1-1.glb" : String) ≠ "c1-model-m1-0.glb" := by
  refine ⟨?_, by rfl, by decide⟩
  intro i h
  rw [artifactName] at h
  have hd := congrArg String.data h
  simp only [strData_append] at hd
  have hpre : "c1-model-m1-".data ++ ((toString i).data ++ ".glb".data) =
      "c1-model-m1x.glb".data := hd
  have hpfx : "c1-model-m1-".data <+: "c1-model-m1x.glb".data :=
    ⟨(toString i).data ++ ".glb".data, hpre⟩
  exact absurd hpfx (by decide)

/-- C3 as amended: the sequence number is the count of files in the cache
directory matching the glob `f"{chat_id}-model-{msg_id}*.glb"`; in
particular, when the glob matches of the directory are exactly the pair's
own `N` artifacts, the next artifact is assigned sequence `N`. -/
theorem c3_amended_glob_sequence (dir : List String) (chat_id msg_id : String)
    (N : Nat) (model : List Nat)
    (h : dir.filter (globMatch chat_id msg_id) =
      (List.range N).map (artifactName chat_id msg_id)) :
    ((generate_model_html model chat_id msg_id dir).1).1 =
      artifactName chat_id msg_id N := by
  have hc : countExisting dir chat_id msg_id = N := by
    rw [countExisting, h, List.length_map, List.length_range]
  simp only [generate_model_html]
  rw [hc]

/-- Witness for C3 as amended: three existing artifacts of the pair (and one
unrelated file the glob does not match) give sequence 3. -/
theorem c3_witness :
    (["c1-model-m1-0.glb", "notes.txt", "c1-model-m1-1.glb", "c1-model-m1-2.glb"].filter
        (globMatch "c1" "m1") = (List.range 3).map (artifactName "c1" "m1")) ∧
    ((generate_model_html [] "c1" "m1"
        ["c1-model-m1-0.glb", "notes.txt", "c1-model-m1-1.glb", "c1-model-m1-2.glb"]).1).1 =
      "c1-model-m1-3.glb" :=
  ⟨by decide,
   (c3_amended_glob_sequence
      ["c1-model-m1-0.glb", "notes.txt", "c1-model-m1-1.glb", "c1-model-m1-2.glb"]
      "c1" "m1" 3 [] (by decide)).trans (by decide)⟩

set_option maxRecDepth 8192 in
/-- C7: the end-to-end pipeline on the message
`"```python\ndef model():\n    pass\n```"` with a render stub returning the
12 bytes `stub12` and an empty cache directory performs exactly one cache
write holding those 12 bytes, and the emitted document's `src` reference
`model_path` names the written artifact exactly: the written path is the
serving-root directory `"data"` followed by the embedded reference. -/
theorem c7_end_to_end :
    pipeline "```python\ndef model():\n    pass\n```"
        (fun _ => RenderResult.success stub12) "c1" "m1" [] =
      some (("c1-model-m1-0.glb", template_html "c1-model-m1-0.glb"),
        [("data/" ++ cache ++ "models/" ++ "c1-model-m1-0.glb", stub12)]) ∧
    stub12.length = 12 ∧
    strContains (template_html "c1-model-m1-0.glb")
      ("src=\"" ++ model_path "c1-model-m1-0.glb" ++ "\"") = true ∧
    "data/" ++ cache ++ "models/" ++ "c1-model-m1-0.glb" =
      "data" ++ model_path "c1-model-m1-0.glb" := by
  have hcode : get_model_code "```python\ndef model():\n    pass\n```" =
      .ok "def model():\n    pass" := by
    rw [get_model_code, if_neg (by decide)]
    rw [show splitLines "```python\ndef model():\n    pass\n```" =
      ["```python", "def model():", "    pass", "```"] from rfl]
    exact getModelCodeLines_eval (by decide) (by rfl)
  refine ⟨?_, by rfl, by decide, by rfl⟩
  simp only [pipeline, hcode]
  rw [if_neg (by decide)]
  rfl

theorem append_ne_empty_left (a s : String) (ha : a ≠ "") : a ++ s ≠ "" := by
  intro h
  apply ha
  have hd := congrArg String.data h
  rw [strData_append] at hd
  rcases List.append_eq_nil.mp hd with ⟨h1, _⟩
  exact String.ext (h1.trans rfl)

set_option maxRecDepth 8192 in
theorem template_html_ne_empty (f : String) : template_html f ≠ "" := by
  rw [template_html]
  apply append_ne_empty_left
  apply append_ne_empty_left
  decide

/-- C10: `template_html` returns a non-empty string for every filename (its
output begins with a fixed non-empty prefix), so the branch of
`render_model_to_html` raising `httpx.RequestError` on empty html is
unreachable: a render failure surfaces from `render_model_to_html` only as a
`BlenderRenderError`. -/
theorem c10_request_error_unreachable :
    (∀ f : String, template_html f ≠ "") ∧
    (∀ (transport : Option HttpResponse) (errText chat_id msg_id : String)
      (dir : List String) (s : String),
      render_model_to_html transport errText chat_id msg_id dir ≠ .requestError s) := by
  refine ⟨template_html_ne_empty, ?_⟩
  intro transport errText chat_id msg_id dir s
  rw [render_model_to_html]
  cases hr : render_model transport errText with
  | renderError m d l => simp
  | success model =>
    simp only []
    have hhtml : ((generate_model_html model chat_id msg_id dir).1).2 =
        template_html (artifactName chat_id msg_id (countExisting dir chat_id msg_id)) := rfl
    rw [hhtml, if_neg (template_html_ne_empty _)]
    simp

theorem exec_complete_before_ret (w : Nat) :
    ∀ {is : List AsyncInstr} {pending completed : List Nat} {evs : List AsyncEvent},
    Exec is pending completed evs →
    (w ∈ completed ∨ AwaitGuardsRet w is) →
    ∀ pre suf, evs = pre ++ .returns :: suf →
    (AsyncEvent.completes w ∈ pre ∨ w ∈ completed) := by
  intro is pending completed evs hexec
  induction hexec with
  | done =>
    intro _ pre suf hsplit
    exact absurd hsplit (by simp)
  | spawn hsub ih =>
    intro hg pre suf hsplit
    refine ih ?_ pre suf hsplit
    rcases hg with hg | hg
    · exact Or.inl hg
    · cases hg with
      | cons hne hg' => exact Or.inr hg'
  | complete hmem hsub ih =>
    rename_i t is' pending' completed' evs'
    intro hg pre suf hsplit
    cases pre with
    | nil => simp at hsplit
    | cons e pre' =>
      simp only [List.cons_append, List.cons.injEq] at hsplit
      obtain ⟨rfl, hsplit'⟩ := hsplit
      have hg' : w ∈ t :: completed' ∨ AwaitGuardsRet w is' := by
        rcases hg with hg | hg
        · exact Or.inl (List.mem_cons_of_mem _ hg)
        · exact Or.inr hg
      rcases ih hg' pre' suf hsplit' with hin | hin
      · exact Or.inl (List.mem_cons_of_mem _ hin)
      · rcases List.mem_cons.mp hin with rfl | hin
        · exact Or.inl (List.mem_cons_self _ _)
        · exact Or.inr hin
  | awaited hmem hsub ih =>
    rename_i t is' pending' completed' evs'
    intro hg pre suf hsplit
    refine ih ?_ pre suf hsplit
    rcases hg with hg | hg
    · exact Or.inl hg
    · cases hg with
      | here => exact Or.inl hmem
      | cons hne hg' => exact Or.inr hg'
  | ret hsub ih =>
    rename_i is' pending' completed' evs'
    intro hg pre suf hsplit
    have hw : w ∈ completed' := by
      rcases hg with hg | hg
      · exact hg
      · cases hg with
        | cons hne _ => exact absurd rfl hne
    cases pre with
    | nil => exact Or.inr hw
    | cons e pre' =>
      simp only [List.cons_append, List.cons.injEq] at hsplit
      obtain ⟨rfl, hsplit'⟩ := hsplit
      rcases ih (Or.inl hw) pre' suf hsplit' with hin | hin
      · exact Or.inl (List.mem_cons_of_mem _ hin)
      · exact Or.inr hw

/-- C8: in every execution of the await structure of `generate_model_html`
(spawn the cache write, spawn the templating, await the write, await the
template, return), the cache-write task completes strictly before the
orchestrator returns the filename/document pair: whatever the scheduler
does, `completes writeModelTask` precedes `returns` in the event trace. -/
theorem c8_write_completes_before_return
    (evs pre suf : List AsyncEvent)
    (hexec : Exec generateModelHtmlSchedule [] [] evs)
    (hsplit : evs = pre ++ .returns :: suf) :
    AsyncEvent.completes writeModelTask ∈ pre := by
  have hguard : AwaitGuardsRet writeModelTask generateModelHtmlSchedule := by
    refine AwaitGuardsRet.cons (by decide) (AwaitGuardsRet.cons (by decide) ?_)
    exact AwaitGuardsRet.here
  rcases exec_complete_before_ret writeModelTask hexec (Or.inr hguard) pre suf hsplit with
    h | h
  · exact h
  · exact absurd h (by simp)

/-- Witness for C8: the execution that completes the write task, completes
the template task and returns. -/
theorem c8_witness :
    (Exec generateModelHtmlSchedule [] []
        [.completes writeModelTask, .completes templateHtmlTask, .returns] ∧
      ([.completes writeModelTask, .completes templateHtmlTask, .returns] :
          List AsyncEvent) =
        [.completes writeModelTask, .completes templateHtmlTask] ++ .returns :: []) ∧
    AsyncEvent.completes writeModelTask ∈
      [AsyncEvent.completes writeModelTask, AsyncEvent.completes templateHtmlTask] := by
  have h7 : Exec [] [] [templateHtmlTask, writeModelTask] [] := Exec.done
  have h6 : Exec [.ret] [] [templateHtmlTask, writeModelTask] [.returns] := Exec.ret h7
  have h5 : Exec [.awaitTask templateHtmlTask, .ret] [] [templateHtmlTask, writeModelTask]
      [.returns] :=
    Exec.awaited (show templateHtmlTask ∈ [templateHtmlTask, writeModelTask] by decide) h6
  have h4 : Exec [.awaitTask templateHtmlTask, .ret] [templateHtmlTask] [writeModelTask]
      [.completes templateHtmlTask, .returns] :=
    Exec.complete (show templateHtmlTask ∈ [templateHtmlTask] by decide) h5
  have h3 : Exec [.awaitTask writeModelTask, .awaitTask templateHtmlTask, .ret]
      [templateHtmlTask] [writeModelTask] [.completes templateHtmlTask, .returns] :=
    Exec.awaited (show writeModelTask ∈ [writeModelTask] by decide) h4
  have h2 : Exec [.awaitTask writeModelTask, .awaitTask templateHtmlTask, .ret]
      [templateHtmlTask, writeModelTask] []
      [.completes writeModelTask, .completes templateHtmlTask, .returns] :=
    Exec.complete (show writeModelTask ∈ [templateHtmlTask, writeModelTask] by decide) h3
  have h1 : Exec [.spawn templateHtmlTask, .awaitTask writeModelTask,
      .awaitTask templateHtmlTask, .ret] [writeModelTask] []
      [.completes writeModelTask, .completes templateHtmlTask, .returns] := Exec.spawn h2
  have hexec : Exec generateModelHtmlSchedule [] []
      [.completes writeModelTask, .completes templateHtmlTask, .returns] := Exec.spawn h1
  exact ⟨⟨hexec, rfl⟩,
    c8_write_completes_before_return _ _ _ hexec rfl⟩

/-- Witness for C9 at a concrete content with a valid block. -/
theorem c9_witness :
    (get_model_code "```python\ndef model(r):\n```" = .ok "def model(r):" ∧
      ("def model(r):" : String) ≠ "") ∧
    strContains "def model(r):" modelMarker = true := by
  have h : get_model_code "```python\ndef model(r):\n```" = .ok "def model(r):" := by
    rw [get_model_code, if_neg (by decide)]
    rw [show splitLines "```python\ndef model(r):\n```" =
      ["```python", "def model(r):", "```"] from rfl]
    exact getModelCodeLines_eval (by decide) (by rfl)
  exact ⟨⟨h, by decide⟩,
    c9_nonempty_result_has_marker "```python\ndef model(r):\n```" "def model(r):" h (by decide)⟩

end Blender
